import Mathlib

/-!
Shallow embedding of the storefront server (`src/server.js`): product catalog,
session cart, cart reconciliation (`getCartDetailed`), cart mutation routes
(`POST /cart/add`, `POST /cart/update`, `POST /cart/remove`), the checkout
routes (`GET /checkout`, `POST /checkout`) and the auth guard (`requireAuth`).

Conventions of the embedding:
- JS numbers that are integral in this program are modelled as `Nat`
  (prices, quantities) or `Int` (the result of `parseInt`, which may be
  negative); a `NaN` result of `parseInt` is modelled as `none : Option Int`.
- A possibly-`undefined` request-body string is `Option String`; JS string
  truthiness (`""` is falsy) is `jsTruthyStr`.
- The per-request state the routes touch (products file, orders file, the
  session's cart and userId) is an `AppState`; each route handler is a pure
  function `AppState → ... → Response × AppState`.
- The flash message machinery, view rendering payload details and the
  `next=` query parameter of the login redirect are presentation glue and
  are elided from `Response`.
-/

/-- A catalog product (`products.json` record). -/
structure Product where
  id : String
  name : String
  description : String
  price : Nat
  image : String
deriving DecidableEq, Repr

/-- One line of a session cart (`req.session.cart` element). -/
structure CartLine where
  productId : String
  quantity : Nat
deriving DecidableEq, Repr

/-- An item of the derived priced cart view built by `getCartDetailed`. -/
structure PricedCartItem where
  productId : String
  name : String
  price : Nat
  image : String
  quantity : Nat
  subtotal : Nat
deriving DecidableEq, Repr

/-- The priced cart view `{ items, total }` returned by `getCartDetailed`. -/
structure PricedCart where
  items : List PricedCartItem
  total : Nat
deriving DecidableEq, Repr

/-- Customer fields captured on an order (`{ name, email, address }`). -/
structure Customer where
  name : String
  email : String
  address : String
deriving DecidableEq, Repr

/-- A persisted order (`orders.json` record). -/
structure Order where
  id : String
  createdAt : String
  userId : Option String
  customer : Customer
  items : List PricedCartItem
  total : Nat
deriving DecidableEq, Repr

/-- The session slice the modelled routes touch: the cart and the optional
authenticated user id (`req.session.cart`, `req.session.userId`). -/
structure Session where
  cart : List CartLine
  userId : Option String
deriving DecidableEq, Repr

/-- The mutable state a request sees: the products store, the orders store and
the current session. -/
structure AppState where
  products : List Product
  orders : List Order
  sess : Session
deriving DecidableEq, Repr

/-- JS truthiness of `req.session.userId : string | null | undefined`:
`null`/`undefined` and the empty string are falsy. -/
def jsTruthyStr (o : Option String) : Bool :=
  match o with
  | none => false
  | some s => s != ""

/-- Coercion `x || null` on a string-or-null value, as used in
`userId: req.session.userId || null`. -/
def jsOrNull (o : Option String) : Option String :=
  if jsTruthyStr o then o else none

/-- Lookup `findProductById(products, id)`: `products.find((p) => p.id === id)`. -/
def findProductById (products : List Product) (id : String) : Option Product :=
  products.find? (fun p => p.id == id)

/-- The body of the `cart.map((ci) => ...)` callback in `getCartDetailed`:
price the line if the product resolves, otherwise `null` (here `none`). -/
def priceLine (products : List Product) (ci : CartLine) : Option PricedCartItem :=
  match findProductById products ci.productId with
  | none => none
  | some product =>
      some { productId := ci.productId
             name := product.name
             price := product.price
             image := product.image
             quantity := ci.quantity
             subtotal := product.price * ci.quantity }

/-- Reconciliation `getCartDetailed(products, cart)`: map each line to its priced item or
`null`, `.filter(Boolean)`, then `reduce` the subtotals from 0. -/
def getCartDetailed (products : List Product) (cart : List CartLine) : PricedCart :=
  let items := (cart.map (priceLine products)).filterMap id
  let total := items.foldl (fun sum it => sum + it.subtotal) 0
  { items := items, total := total }

/-- Responses the modelled routes can produce (view payload details elided). -/
inductive Response where
  | redirect : String → Response
  | renderCart : PricedCart → Response
  | renderCheckout : Bool → Bool → Bool → PricedCart → Response
  | badRequest : Response
deriving DecidableEq, Repr

/-- Route `GET /cart`: read-only reconciling read; renders the detailed view and
leaves all state alone. -/
def getCartRoute (st : AppState) : Response × AppState :=
  (Response.renderCart (getCartDetailed st.products st.sess.cart), st)

/-- The quantity normalization of `POST /cart/add`:
`parseInt` result (or NaN) → `if (Number.isNaN(q) || q <= 0) q = 1`. -/
def normAddQty (qRaw : Option Int) : Nat :=
  match qRaw with
  | none => 1
  | some v => if v ≤ 0 then 1 else v.toNat

/-- The quantity normalization of `POST /cart/update`:
`if (Number.isNaN(q) || q < 0) q = 0`. -/
def normUpdQty (qRaw : Option Int) : Nat :=
  match qRaw with
  | none => 0
  | some v => if v < 0 then 0 else v.toNat

/-- Mutation `existing.quantity += quantity` on the first line matching `pid`
(JS `find` returns the first match and it is mutated in place). -/
def bumpFirst (cart : List CartLine) (pid : String) (q : Nat) : List CartLine :=
  match cart with
  | [] => []
  | it :: rest =>
      if it.productId == pid then { it with quantity := it.quantity + q } :: rest
      else it :: bumpFirst rest pid q

/-- Route `POST /cart/add`: normalize quantity, reject an unresolvable product with
a 400 and no mutation, else increment the existing line or append a new one. -/
def cartAdd (st : AppState) (pid : String) (qRaw : Option Int) : Response × AppState :=
  let quantity := normAddQty qRaw
  match findProductById st.products pid with
  | none => (Response.badRequest, st)
  | some _ =>
      let cart :=
        if st.sess.cart.any (fun it => it.productId == pid) then
          bumpFirst st.sess.cart pid quantity
        else
          st.sess.cart ++ [{ productId := pid, quantity := quantity }]
      (Response.redirect "/cart", { st with sess := { st.sess with cart := cart } })

/-- The `findIndex`-guarded mutation of `POST /cart/update` on the first line
matching `pid`: splice it out when the quantity is 0, else set its quantity. -/
def updateFirst (cart : List CartLine) (pid : String) (q : Nat) : List CartLine :=
  match cart with
  | [] => []
  | it :: rest =>
      if it.productId == pid then
        if q == 0 then rest else { it with quantity := q } :: rest
      else it :: updateFirst rest pid q

/-- Route `POST /cart/update`: normalize quantity, then update/remove the first
matching line; no-op on the cart when `pid` is absent. -/
def cartUpdate (st : AppState) (pid : String) (qRaw : Option Int) : Response × AppState :=
  let quantity := normUpdQty qRaw
  let cart := updateFirst st.sess.cart pid quantity
  (Response.redirect "/cart", { st with sess := { st.sess with cart := cart } })

/-- Route `POST /cart/remove`: `cart.filter((it) => it.productId !== productId)`. -/
def cartRemove (st : AppState) (pid : String) : Response × AppState :=
  let cart := st.sess.cart.filter (fun it => it.productId != pid)
  (Response.redirect "/cart", { st with sess := { st.sess with cart := cart } })

/-- The character class `[^\s@]` of the checkout email regex. -/
def clsNonSpaceAt (c : Char) : Bool :=
  !c.isWhitespace && c != '@'

/-- Backtracking matcher for `cls+` followed by continuation `k`: consume one
or more characters satisfying `cls`, then the rest must satisfy `k`. -/
def plusThen (cls : Char → Bool) (k : List Char → Bool) : List Char → Bool
  | [] => false
  | c :: rest => cls c && (k rest || plusThen cls k rest)

/-- Continuation for the regex fragment `\.[^\s@]+$`: a literal dot followed
by one or more class characters, ending the string. -/
def emailTail2 (r : List Char) : Bool :=
  match r with
  | '.' :: r4 => plusThen clsNonSpaceAt List.isEmpty r4
  | _ => false

/-- Continuation for the regex fragment `@[^\s@]+\.[^\s@]+$`: a literal `@`
followed by one or more class characters, then `emailTail2`. -/
def emailTail1 (r : List Char) : Bool :=
  match r with
  | '@' :: r2 => plusThen clsNonSpaceAt emailTail2 r2
  | _ => false

/-- The anchored checkout email regex of `POST /checkout`:
`/^[^\s@]+@[^\s@]+\.[^\s@]+$/`, as a backtracking matcher over the
character list of the string. -/
def emailRegexMatch (s : String) : Bool :=
  plusThen clsNonSpaceAt emailTail1 s.data

/-- JS `String.prototype.trim`: strip leading and trailing whitespace (as a
character list, so the kernel can evaluate it). -/
def jsTrim (s : String) : List Char :=
  ((s.data.dropWhile Char.isWhitespace).reverse.dropWhile Char.isWhitespace).reverse

/-- Check `!name || name.trim().length < 2` (checkout `errors.name`). -/
def nameError (name : Option String) : Bool :=
  match name with
  | none => true
  | some s => s == "" || (jsTrim s).length < 2

/-- Check `!email || !regex.test(email)` (checkout `errors.email`). -/
def emailError (email : Option String) : Bool :=
  match email with
  | none => true
  | some s => s == "" || !emailRegexMatch s

/-- Check `!address || address.trim().length < 5` (checkout `errors.address`). -/
def addressError (address : Option String) : Bool :=
  match address with
  | none => true
  | some s => s == "" || (jsTrim s).length < 5

/-- Checkout field validation: the three independent error flags computed at
the top of `POST /checkout`. -/
structure CheckoutErrors where
  name : Bool
  email : Bool
  address : Bool
deriving DecidableEq, Repr

/-- Test `Object.keys(errors).length > 0`. -/
def CheckoutErrors.hasErrors (e : CheckoutErrors) : Bool :=
  e.name || e.email || e.address

/-- The checkout field validator (lines 210-212 of `server.js`); it reads
neither the catalog nor the cart. -/
def validateCheckout (name email address : Option String) : CheckoutErrors :=
  { name := nameError name
    email := emailError email
    address := addressError address }

/-- Middleware `requireAuth`: a falsy `req.session.userId` is redirected to
the login flow (the `next=` parameter is elided). -/
def requireAuthBlocks (st : AppState) : Bool :=
  !jsTruthyStr st.sess.userId

/-- Route `GET /checkout` (behind `requireAuth`): redirect to the cart view when the
reconciled cart has no items, else render the checkout form. -/
def checkoutGet (st : AppState) : Response × AppState :=
  if requireAuthBlocks st then (Response.redirect "/auth/login", st)
  else
    let detailed := getCartDetailed st.products st.sess.cart
    if detailed.items.isEmpty then (Response.redirect "/cart", st)
    else (Response.renderCheckout false false false detailed, st)

/-- Route `POST /checkout` (behind `requireAuth`): validate fields, reconcile the
cart, refuse an empty cart with a redirect (before the field errors are
returned), re-render on field errors, else append the order built from the
priced view and clear the session cart. `fid` and `ts` stand for the
`uuidv4()` and `new Date().toISOString()` calls. -/
def postCheckout (st : AppState) (name email address : Option String)
    (fid ts : String) : Response × AppState :=
  if requireAuthBlocks st then (Response.redirect "/auth/login", st)
  else
    let errors := validateCheckout name email address
    let detailed := getCartDetailed st.products st.sess.cart
    if detailed.items.isEmpty then (Response.redirect "/cart", st)
    else if errors.hasErrors then
      (Response.renderCheckout errors.name errors.email errors.address detailed, st)
    else
      let order : Order :=
        { id := fid
          createdAt := ts
          userId := jsOrNull st.sess.userId
          customer := { name := name.getD "", email := email.getD "", address := address.getD "" }
          items := detailed.items
          total := detailed.total }
      (Response.redirect "/",
        { st with orders := st.orders ++ [order], sess := { st.sess with cart := [] } })

/-- Catalog replacement between requests: `products.json` is re-read by every
route, so an external rewrite of the file (price change, product removal) is
a change of `AppState.products` with the other stores untouched. -/
def setProducts (st : AppState) (ps : List Product) : AppState :=
  { st with products := ps }

/-- The language of the checkout email regex `/^[^\s@]+@[^\s@]+\.[^\s@]+$/`:
three nonempty `[^\s@]` segments around a literal `@` and a literal `.`. -/
def CodeEmailShape (s : String) : Prop :=
  ∃ a b c : List Char,
    s.data = a ++ '@' :: (b ++ '.' :: c) ∧
    a ≠ [] ∧ b ≠ [] ∧ c ≠ [] ∧
    (∀ ch ∈ a, clsNonSpaceAt ch = true) ∧
    (∀ ch ∈ b, clsNonSpaceAt ch = true) ∧
    (∀ ch ∈ c, clsNonSpaceAt ch = true)

/-- Modelled from the spec: the email shape exactly as the spec words it
(§4.2) — "one or more non-space/non-@ characters, @, one or more
non-space/non-@ characters, ., one or more non-space characters". The final
segment only excludes whitespace, not `@`. -/
def SpecEmailShape (s : String) : Prop :=
  ∃ a b c : List Char,
    s.data = a ++ '@' :: (b ++ '.' :: c) ∧
    a ≠ [] ∧ b ≠ [] ∧ c ≠ [] ∧
    (∀ ch ∈ a, clsNonSpaceAt ch = true) ∧
    (∀ ch ∈ b, clsNonSpaceAt ch = true) ∧
    (∀ ch ∈ c, ¬ch.isWhitespace)

/-- Demo product `p1` of §8 (price 100). -/
def demoP1 : Product :=
  { id := "p1", name := "P1", description := "", price := 100, image := "" }

/-- Demo product `p2` of §8 (price 250). -/
def demoP2 : Product :=
  { id := "p2", name := "P2", description := "", price := 250, image := "" }

/-- State for the self-healing scenario of §8: the catalog has only `p1`, the
cart also references the missing `p2`. -/
def stMissing : AppState :=
  { products := [demoP1], orders := [],
    sess := { cart := [⟨"p1", 2⟩, ⟨"p2", 1⟩], userId := none } }

/-- State whose cart already has two lines with the same `productId`. -/
def stDupKeys : AppState :=
  { products := [demoP1], orders := [],
    sess := { cart := [⟨"p1", 1⟩, ⟨"p1", 2⟩], userId := none } }

/-- An authenticated session whose only cart line references a missing
product, so the reconciled cart is empty. -/
def stEmptyAuth : AppState :=
  { products := [demoP1], orders := [],
    sess := { cart := [⟨"gone", 1⟩], userId := some "u1" } }

/-- An authenticated state ready for a successful checkout (§8 totals demo:
`p1` price 100 qty 2, `p2` price 250 qty 1). -/
def stReady : AppState :=
  { products := [demoP1, demoP2], orders := [],
    sess := { cart := [⟨"p1", 2⟩, ⟨"p2", 1⟩], userId := some "u1" } }

/-- State with an empty cart and `p1` in the catalog (add-accumulates demo). -/
def stEmptyCart : AppState :=
  { products := [demoP1], orders := [], sess := { cart := [], userId := none } }

/-- State with cart `[{p1, 5}]` (update-to-zero demo). -/
def stP1Five : AppState :=
  { products := [demoP1], orders := [], sess := { cart := [⟨"p1", 5⟩], userId := none } }

/-- An unauthenticated session with a resolvable cart line. -/
def stNoAuth : AppState :=
  { products := [demoP1], orders := [], sess := { cart := [⟨"p1", 1⟩], userId := none } }

/-- The order that a successful checkout commits from `stReady` when the fresh
id is `"oid"` and the timestamp is `"ts0"`. -/
def orderReady : Order :=
  { id := "oid", createdAt := "ts0", userId := some "u1",
    customer := { name := "Alice", email := "a@b.co", address := "12345" },
    items := [⟨"p1", "P1", 100, "", 2, 200⟩, ⟨"p2", "P2", 250, "", 1, 250⟩],
    total := 450 }

/-- The split characterization of the backtracking `cls+ k` matcher. -/
theorem plusThen_iff (cls : Char → Bool) (k : List Char → Bool) (l : List Char) :
    plusThen cls k l = true ↔
      ∃ a b, l = a ++ b ∧ a ≠ [] ∧ (∀ c ∈ a, cls c = true) ∧ k b = true := by
  induction l with
  | nil =>
      simp only [plusThen]
      constructor
      · intro h; exact absurd h (by simp)
      · rintro ⟨a, b, heq, hne, -, -⟩
        exact absurd (List.append_eq_nil.mp heq.symm).1 hne
  | cons c rest ih =>
      simp only [plusThen, Bool.and_eq_true, Bool.or_eq_true]
      constructor
      · rintro ⟨hc, hk | hrec⟩
        · exact ⟨[c], rest, rfl, by simp, by simpa using hc, hk⟩
        · obtain ⟨a, b, heq, hne, hcls, hk⟩ := ih.mp hrec
          exact ⟨c :: a, b, by simp [heq], by simp,
            by intro x hx; rcases List.mem_cons.mp hx with h | h;
               · exact h ▸ hc
               · exact hcls x h,
            hk⟩
      · rintro ⟨a, b, heq, hne, hcls, hk⟩
        cases a with
        | nil => exact absurd rfl hne
        | cons a0 a' =>
            have heq' : a0 :: (a' ++ b) = c :: rest := by simpa using heq.symm
            injection heq' with h0 hrest
            subst h0
            refine ⟨hcls a0 (by simp), ?_⟩
            cases a' with
            | nil => exact Or.inl (by simpa [← hrest] using hk)
            | cons a1 a'' =>
                refine Or.inr (ih.mpr ⟨a1 :: a'', b, hrest.symm, by simp, ?_, hk⟩)
                intro x hx; exact hcls x (List.mem_cons_of_mem a0 hx)

/-- Characterization of the `\.[^\s@]+$` continuation. -/
theorem emailTail2_iff (r : List Char) :
    emailTail2 r = true ↔
      ∃ c : List Char, r = '.' :: c ∧ c ≠ [] ∧ ∀ ch ∈ c, clsNonSpaceAt ch = true := by
  rw [emailTail2.eq_def]
  split
  case h_1 r4 =>
    rw [plusThen_iff]
    constructor
    · rintro ⟨a, b, heq, hne, hcls, hb⟩
      have hb' : b = [] := by simpa using hb
      subst hb'
      have ha : r4 = a := by simpa using heq
      subst ha
      exact ⟨r4, rfl, hne, hcls⟩
    · rintro ⟨c, hc, hne, hcls⟩
      injection hc with _ h2
      subst h2
      exact ⟨r4, [], by simp, hne, hcls, by simp⟩
  case h_2 h =>
    simp only [Bool.false_eq_true, false_iff]
    rintro ⟨c, hc, -, -⟩
    exact h c hc

/-- Characterization of the `@[^\s@]+\.[^\s@]+$` continuation. -/
theorem emailTail1_iff (r : List Char) :
    emailTail1 r = true ↔
      ∃ b c : List Char, r = '@' :: (b ++ '.' :: c) ∧ b ≠ [] ∧ c ≠ [] ∧
        (∀ ch ∈ b, clsNonSpaceAt ch = true) ∧ (∀ ch ∈ c, clsNonSpaceAt ch = true) := by
  rw [emailTail1.eq_def]
  split
  case h_1 r2 =>
    rw [plusThen_iff]
    constructor
    · rintro ⟨b, r3, heq2, hneb, hclsb, h2⟩
      obtain ⟨c, hc, hnec, hclsc⟩ := (emailTail2_iff r3).mp h2
      exact ⟨b, c, by rw [heq2, hc], hneb, hnec, hclsb, hclsc⟩
    · rintro ⟨b, c, heq, hneb, hnec, hclsb, hclsc⟩
      injection heq with _ h2
      exact ⟨b, '.' :: c, h2, hneb, hclsb, (emailTail2_iff _).mpr ⟨c, rfl, hnec, hclsc⟩⟩
  case h_2 h =>
    simp only [Bool.false_eq_true, false_iff]
    rintro ⟨b, c, hc, -⟩
    exact h (b ++ '.' :: c) hc

/-- The checkout email regex accepts exactly the strings of `CodeEmailShape`. -/
theorem emailRegexMatch_iff (s : String) :
    emailRegexMatch s = true ↔ CodeEmailShape s := by
  unfold emailRegexMatch CodeEmailShape
  rw [plusThen_iff]
  constructor
  · rintro ⟨a, r1, heq, hne, hcls, h1⟩
    obtain ⟨b, c, hc, hneb, hnec, hclsb, hclsc⟩ := (emailTail1_iff r1).mp h1
    exact ⟨a, b, c, by rw [heq, hc], hne, hneb, hnec, hcls, hclsb, hclsc⟩
  · rintro ⟨a, b, c, heq, hnea, hneb, hnec, hclsa, hclsb, hclsc⟩
    exact ⟨a, '@' :: (b ++ '.' :: c), heq, hnea, hclsa,
      (emailTail1_iff _).mpr ⟨b, c, rfl, hneb, hnec, hclsb, hclsc⟩⟩

/-- Unfolding of the priced-line callback as an `Option.map`. -/
theorem priceLine_as_map (products : List Product) (ci : CartLine) :
    priceLine products ci =
      (findProductById products ci.productId).map
        (fun p => { productId := ci.productId, name := p.name, price := p.price,
                    image := p.image, quantity := ci.quantity,
                    subtotal := p.price * ci.quantity }) := by
  unfold priceLine
  cases findProductById products ci.productId <;> rfl

/-- A priced line keeps the cart line's `productId` and resolves in the catalog. -/
theorem priceLine_resolves {products : List Product} {ci : CartLine}
    {it : PricedCartItem} (h : priceLine products ci = some it) :
    it.productId = ci.productId ∧ (findProductById products ci.productId).isSome = true := by
  rw [priceLine_as_map] at h
  cases hf : findProductById products ci.productId with
  | none => rw [hf] at h; exact absurd h (by simp)
  | some p =>
      rw [hf] at h
      have : it = { productId := ci.productId, name := p.name, price := p.price,
                    image := p.image, quantity := ci.quantity,
                    subtotal := p.price * ci.quantity } := by
        simpa using h.symm
      exact ⟨by rw [this], by simp⟩

/-- Summing subtotals by `foldl` from an accumulator. -/
theorem foldl_add_subtotal (l : List PricedCartItem) (n : Nat) :
    l.foldl (fun sum it => sum + it.subtotal) n =
      n + (l.map (fun it => it.subtotal)).sum := by
  induction l generalizing n with
  | nil => simp
  | cons a l ih => simp [ih, Nat.add_assoc]

/-- The derived items are exactly the resolvable lines, priced. -/
theorem getCartDetailed_items (products : List Product) (cart : List CartLine) :
    (getCartDetailed products cart).items =
      cart.filterMap (fun ci =>
        (findProductById products ci.productId).map
          (fun p => { productId := ci.productId, name := p.name, price := p.price,
                      image := p.image, quantity := ci.quantity,
                      subtotal := p.price * ci.quantity })) := by
  simp only [getCartDetailed, List.filterMap_map]
  congr 1
  funext ci
  simpa using priceLine_as_map products ci

/-- C1 (counterexample): reconciliation does not replace the stored cart. On
the catalog `[p1]` and the session cart `[{p1,2},{p2,1}]`, a reconciling read
(`GET /cart`) leaves the persisted cart unchanged, so it still contains the
line `{p2,1}` although `p2` does not resolve in the catalog. -/
theorem reconcile_not_self_healing :
    (getCartRoute stMissing).2.sess.cart = [⟨"p1", 2⟩, ⟨"p2", 1⟩] ∧
    (⟨"p2", 1⟩ : CartLine) ∈ (getCartRoute stMissing).2.sess.cart ∧
    findProductById (getCartRoute stMissing).2.products "p2" = none := by
  exact ⟨rfl, by decide, by decide⟩

/-- C1 (amended): reconciliation is read-only. The reconciling read leaves the
whole application state (in particular the session's persisted cart)
unchanged, and the derived view contains only lines whose productId resolves
to a product in the catalog; the stored cart itself is not repaired. -/
theorem reconcile_view_only_state_unchanged (st : AppState) :
    (getCartRoute st).2 = st ∧
    ((getCartDetailed st.products st.sess.cart).items.all
      (fun it => (findProductById st.products it.productId).isSome)) = true := by
  refine ⟨rfl, ?_⟩
  rw [List.all_eq_true]
  intro it hit
  simp only [getCartDetailed, List.mem_filterMap, List.mem_map, id] at hit
  obtain ⟨o, ⟨ci, hci, hmap⟩, hoeq⟩ := hit
  subst hmap
  obtain ⟨hpid, hsome⟩ := priceLine_resolves hoeq
  rw [hpid]
  exact hsome

/-- C2: reconciliation returns the resolvable lines priced with
`subtotal = price × quantity` (quantity unclamped), the total is the sum of
the item subtotals, an all-unresolvable (in particular an empty) cart yields
`{items := [], total := 0}`, and the §8 demo catalog prices a cart of
`p1 × 2, p2 × 1` at 450. -/
theorem reconcile_prices_and_totals (products : List Product) (cart : List CartLine) :
    (getCartDetailed products cart).items =
      cart.filterMap (fun ci =>
        (findProductById products ci.productId).map
          (fun p => { productId := ci.productId, name := p.name, price := p.price,
                      image := p.image, quantity := ci.quantity,
                      subtotal := p.price * ci.quantity })) ∧
    (getCartDetailed products cart).total =
      ((getCartDetailed products cart).items.map (fun it => it.subtotal)).sum ∧
    (cart.all (fun ci => (findProductById products ci.productId).isNone) = true →
      getCartDetailed products cart = { items := [], total := 0 }) ∧
    (getCartDetailed [demoP1, demoP2] [⟨"p1", 2⟩, ⟨"p2", 1⟩]).total = 450 := by
  refine ⟨getCartDetailed_items products cart, ?_, ?_, by decide⟩
  · show ((cart.map (priceLine products)).filterMap id).foldl
        (fun sum it => sum + it.subtotal) 0 = _
    rw [foldl_add_subtotal]
    simp [getCartDetailed]
  · intro hall
    have h0 : (cart.map (priceLine products)).filterMap id = [] := by
      rw [List.filterMap_eq_nil_iff]
      intro o ho
      rw [List.mem_map] at ho
      obtain ⟨ci, hci, rfl⟩ := ho
      have hci' := List.all_eq_true.mp hall ci hci
      rw [Option.isNone_iff_eq_none] at hci'
      rw [priceLine_as_map, hci']
      rfl
    simp [getCartDetailed, h0]

/-- Witness for C2: on the demo catalog and the empty cart, every line is
(vacuously) unresolvable and reconciliation yields the empty priced cart. -/
theorem reconcile_prices_and_totals_witness :
    (([] : List CartLine).all
      (fun ci => (findProductById [demoP1] ci.productId).isNone) = true) ∧
    getCartDetailed [demoP1] [] = { items := [], total := 0 } :=
  ⟨by decide, (reconcile_prices_and_totals [demoP1] []).2.2.1 (by decide)⟩

/-- C3: on the checkout submit path of an authenticated session, an empty
reconciled cart is refused with a redirect to the cart view whatever the
submitted fields are — before any field errors are returned — and the state
(in particular the order store) is untouched. -/
theorem checkout_empty_cart_precedence (st : AppState) (name email address : Option String)
    (fid ts : String) (hAuth : jsTruthyStr st.sess.userId = true)
    (hEmpty : (getCartDetailed st.products st.sess.cart).items = []) :
    postCheckout st name email address fid ts = (Response.redirect "/cart", st) ∧
    (postCheckout st name email address fid ts).2.orders = st.orders := by
  have hblock : requireAuthBlocks st = false := by
    simp [requireAuthBlocks, hAuth]
  constructor <;> simp [postCheckout, hblock, hEmpty]

/-- Witness for C3: an authenticated session whose only cart line references a
missing product submits invalid name/email/address; the result is the
cart-view redirect, not the field-error render, and no order is created. -/
theorem checkout_empty_cart_precedence_witness :
    jsTruthyStr stEmptyAuth.sess.userId = true ∧
    (getCartDetailed stEmptyAuth.products stEmptyAuth.sess.cart).items = [] ∧
    postCheckout stEmptyAuth (some "") (some "bad") none "oid" "ts0"
      = (Response.redirect "/cart", stEmptyAuth) :=
  ⟨by decide, by decide,
    (checkout_empty_cart_precedence stEmptyAuth (some "") (some "bad") none "oid" "ts0"
      (by decide) (by decide)).1⟩

/-- Incrementing the first matching line after a match-free prefix. -/
theorem bumpFirst_prefix (pre : List CartLine) (l : CartLine) (post : List CartLine)
    (pid : String) (q : Nat) (hpre : ∀ it ∈ pre, it.productId ≠ pid)
    (hl : l.productId = pid) :
    bumpFirst (pre ++ l :: post) pid q =
      pre ++ { l with quantity := l.quantity + q } :: post := by
  induction pre with
  | nil => simp [bumpFirst, hl]
  | cons a pre ih =>
      have ha : (a.productId == pid) = false := beq_eq_false_iff_ne.mpr (hpre a (by simp))
      simp [bumpFirst, ha, ih (fun it hit => hpre it (List.mem_cons_of_mem a hit))]

/-- C4: Add normalizes a non-positive-integer quantity to 1, rejects an
unresolvable productId with a 400 and no state change, appends a new line at
the end when no line for the product exists, increments the first existing
line's quantity by the requested amount otherwise, and Add(p1,2) then
Add(p1,3) on an empty cart yields the single line {p1,5}. -/
theorem cart_add_spec (st : AppState) (pid : String) (qRaw : Option Int) :
    normAddQty none = 1 ∧
    (∀ v : Int, v ≤ 0 → normAddQty (some v) = 1) ∧
    (∀ v : Int, 0 < v → normAddQty (some v) = v.toNat) ∧
    (findProductById st.products pid = none →
      cartAdd st pid qRaw = (Response.badRequest, st)) ∧
    ((findProductById st.products pid).isSome = true →
      ((∀ it ∈ st.sess.cart, it.productId ≠ pid) →
        (cartAdd st pid qRaw).2.sess.cart =
          st.sess.cart ++ [{ productId := pid, quantity := normAddQty qRaw }]) ∧
      (∀ pre l post, st.sess.cart = pre ++ l :: post →
        (∀ it ∈ pre, it.productId ≠ pid) → l.productId = pid →
        (cartAdd st pid qRaw).2.sess.cart =
          pre ++ { l with quantity := l.quantity + normAddQty qRaw } :: post)) ∧
    (cartAdd (cartAdd stEmptyCart "p1" (some 2)).2 "p1" (some 3)).2.sess.cart
      = [⟨"p1", 5⟩] := by
  refine ⟨rfl, ?_, ?_, ?_, ?_, by decide⟩
  · intro v hv
    simp [normAddQty, hv]
  · intro v hv
    simp only [normAddQty]
    rw [if_neg (by omega)]
  · intro h
    simp [cartAdd, h]
  · intro hs
    obtain ⟨p, hp⟩ := Option.isSome_iff_exists.mp hs
    constructor
    · intro hnone
      have hany : st.sess.cart.any (fun it => it.productId == pid) = false := by
        rw [List.any_eq_false]
        intro it hit
        simpa using hnone it hit
      simp [cartAdd, hp, hany]
    · intro pre l post hcart hpre hl
      have hany : st.sess.cart.any (fun it => it.productId == pid) = true := by
        rw [List.any_eq_true]
        exact ⟨l, by rw [hcart]; simp, by simp [hl]⟩
      simp only [cartAdd, hp, hany, if_true]
      rw [hcart]
      exact bumpFirst_prefix pre l post pid _ hpre hl

/-- Witness for C4: with `p1` resolvable and absent from the empty cart, Add
appends `{p1, 2}`; with `p9` unresolvable, Add rejects and leaves the state
unchanged. -/
theorem cart_add_spec_witness :
    (cartAdd stEmptyCart "p1" (some 2)).2.sess.cart = [⟨"p1", 2⟩] ∧
    cartAdd stEmptyCart "p9" (some 1) = (Response.badRequest, stEmptyCart) ∧
    normAddQty (some (-3)) = 1 := by
  refine ⟨?_, ?_, ?_⟩
  · have h := ((cart_add_spec stEmptyCart "p1" (some 2)).2.2.2.2.1 (by decide)).1
      (by intro it hit; simp [stEmptyCart] at hit)
    simpa using h
  · exact (cart_add_spec stEmptyCart "p9" (some 1)).2.2.2.1 (by decide)
  · exact (cart_add_spec stEmptyCart "p1" none).2.1 (-3) (by omega)

/-- Update is the identity on a cart with no matching line. -/
theorem updateFirst_no_match (cart : List CartLine) (pid : String) (q : Nat)
    (h : ∀ it ∈ cart, it.productId ≠ pid) : updateFirst cart pid q = cart := by
  induction cart with
  | nil => rfl
  | cons a rest ih =>
      have ha : (a.productId == pid) = false := beq_eq_false_iff_ne.mpr (h a (by simp))
      simp [updateFirst, ha, ih (fun it hit => h it (List.mem_cons_of_mem a hit))]

/-- Updating the first matching line after a match-free prefix: quantity 0
removes it, any other quantity overwrites it. -/
theorem updateFirst_prefix (pre : List CartLine) (l : CartLine) (post : List CartLine)
    (pid : String) (q : Nat) (hpre : ∀ it ∈ pre, it.productId ≠ pid)
    (hl : l.productId = pid) :
    updateFirst (pre ++ l :: post) pid q =
      if q = 0 then pre ++ post else pre ++ { l with quantity := q } :: post := by
  induction pre with
  | nil =>
      by_cases hq : q = 0 <;> simp [updateFirst, hl, hq]
  | cons a pre ih =>
      have ha : (a.productId == pid) = false := beq_eq_false_iff_ne.mpr (hpre a (by simp))
      have ih' := ih (fun it hit => hpre it (List.mem_cons_of_mem a hit))
      by_cases hq : q = 0
      · subst hq
        simp only [if_pos rfl] at ih'
        simp [updateFirst, ha, ih']
      · simp only [if_neg hq] at ih'
        simp [updateFirst, ha, ih', hq]

/-- C5: Update normalizes a quantity that is not a non-negative integer to 0,
is a no-op on the whole state when no line matches, removes the first
matching line when the normalized quantity is 0, sets (not increments) its
quantity otherwise, and Update(p1,0) on cart [{p1,5}] yields []. -/
theorem cart_update_spec (st : AppState) (pid : String) (qRaw : Option Int) :
    normUpdQty none = 0 ∧
    (∀ v : Int, v < 0 → normUpdQty (some v) = 0) ∧
    (∀ v : Int, 0 ≤ v → normUpdQty (some v) = v.toNat) ∧
    ((∀ it ∈ st.sess.cart, it.productId ≠ pid) →
      cartUpdate st pid qRaw = (Response.redirect "/cart", st)) ∧
    (∀ pre l post, st.sess.cart = pre ++ l :: post →
      (∀ it ∈ pre, it.productId ≠ pid) → l.productId = pid →
      (cartUpdate st pid qRaw).2.sess.cart =
        if normUpdQty qRaw = 0 then pre ++ post
        else pre ++ { l with quantity := normUpdQty qRaw } :: post) ∧
    (cartUpdate stP1Five "p1" (some 0)).2.sess.cart = [] := by
  refine ⟨rfl, ?_, ?_, ?_, ?_, by decide⟩
  · intro v hv
    simp [normUpdQty, hv]
  · intro v hv
    simp only [normUpdQty]
    rw [if_neg (by omega)]
  · intro h
    have h0 := updateFirst_no_match st.sess.cart pid (normUpdQty qRaw) h
    simp [cartUpdate, h0]
  · intro pre l post hcart hpre hl
    simp only [cartUpdate]
    rw [hcart]
    exact updateFirst_prefix pre l post pid _ hpre hl

/-- Witness for C5: Update on a cart without the product changes nothing, and
updating the single `{p1,5}` line to 7 overwrites the quantity. -/
theorem cart_update_spec_witness :
    cartUpdate stEmptyCart "p1" (some 3) = (Response.redirect "/cart", stEmptyCart) ∧
    (cartUpdate stP1Five "p1" (some 7)).2.sess.cart = [⟨"p1", 7⟩] ∧
    normUpdQty (some (-2)) = 0 := by
  refine ⟨?_, ?_, ?_⟩
  · exact (cart_update_spec stEmptyCart "p1" (some 3)).2.2.2.1
      (by intro it hit; simp [stEmptyCart] at hit)
  · have h := (cart_update_spec stP1Five "p1" (some 7)).2.2.2.2.1 [] ⟨"p1", 5⟩ []
      (by decide) (by intro it hit; simp at hit) (by decide)
    simpa using h
  · exact (cart_update_spec stEmptyCart "p1" none).2.1 (-2) (by omega)

/-- C6 (counterexample): the spec's email shape allows `@` after the dot, the
code's regex does not. The email "a@b.c@d" is present and matches the shape
as the claim words it (non-space/non-@, `@`, non-space/non-@, `.`, one or
more non-space characters), yet the validator reports an email error. -/
theorem email_shape_mismatch :
    emailError (some "a@b.c@d") = true ∧ SpecEmailShape "a@b.c@d" := by
  refine ⟨by decide, ⟨['a'], ['b'], ['c', '@', 'd'], by decide, by decide, by decide,
    by decide, by decide, by decide, by decide⟩⟩

/-- The name rule fires exactly on trimmed length below 2. -/
theorem nameError_iff (s : String) :
    nameError (some s) = true ↔ (jsTrim s).length < 2 := by
  simp only [nameError, Bool.or_eq_true, beq_iff_eq, decide_eq_true_eq]
  constructor
  · rintro (rfl | h)
    · decide
    · exact h
  · exact Or.inr

/-- The address rule fires exactly on trimmed length below 5. -/
theorem addressError_iff (s : String) :
    addressError (some s) = true ↔ (jsTrim s).length < 5 := by
  simp only [addressError, Bool.or_eq_true, beq_iff_eq, decide_eq_true_eq]
  constructor
  · rintro (rfl | h)
    · decide
    · exact h
  · exact Or.inr

/-- The empty string is not in the code's email language. -/
theorem not_codeEmailShape_empty : ¬CodeEmailShape "" := by
  rintro ⟨a, b, c, heq, -, -⟩
  have hnil : ("" : String).data = [] := rfl
  rw [hnil] at heq
  exact absurd heq.symm (by simp)

/-- The email rule fires exactly off the code's email language. -/
theorem emailError_iff (s : String) :
    emailError (some s) = true ↔ ¬CodeEmailShape s := by
  simp only [emailError, Bool.or_eq_true, beq_iff_eq, Bool.not_eq_true']
  constructor
  · rintro (rfl | h)
    · exact not_codeEmailShape_empty
    · intro hcode
      rw [(emailRegexMatch_iff s).mpr hcode] at h
      exact Bool.noConfusion h
  · intro h
    cases hm : emailRegexMatch s with
    | false => exact Or.inr rfl
    | true => exact absurd ((emailRegexMatch_iff s).mp hm) h

/-- C6 (amended): the three checkout field rules are independent flags: a name
error fires iff the name is absent or its trimmed length is < 2, an email
error fires iff the email is absent or outside the language of
`/^[^\s@]+@[^\s@]+\.[^\s@]+$/` (whose final segment excludes both whitespace
and `@`), an address error fires iff the address is absent or its trimmed
length is < 5; the validator is the triple of the three flags, no flag set
means valid, and it reads neither the catalog nor the cart (its type takes
neither). The spec's threshold examples hold. -/
theorem checkout_validation_spec (name email address : Option String) :
    (nameError name = true ↔
      (name = none ∨ ∃ s, name = some s ∧ (jsTrim s).length < 2)) ∧
    (emailError email = true ↔
      (email = none ∨ ∃ s, email = some s ∧ ¬CodeEmailShape s)) ∧
    (addressError address = true ↔
      (address = none ∨ ∃ s, address = some s ∧ (jsTrim s).length < 5)) ∧
    validateCheckout name email address =
      { name := nameError name, email := emailError email,
        address := addressError address } ∧
    ((validateCheckout name email address).hasErrors = false ↔
      (nameError name = false ∧ emailError email = false ∧
        addressError address = false)) ∧
    (nameError (some "A") = true ∧ nameError (some "Al") = false ∧
      emailError (some "bad") = true ∧ emailError (some "a@b.co") = false ∧
      addressError (some "123") = true ∧ addressError (some "12345") = false) := by
  refine ⟨?_, ?_, ?_, rfl, ?_, by decide⟩
  · cases name with
    | none => simp [nameError]
    | some s => rw [nameError_iff]; simp
  · cases email with
    | none => simp [emailError]
    | some s => rw [emailError_iff]; simp
  · cases address with
    | none => simp [addressError]
    | some s => rw [addressError_iff]; simp
  · simp only [validateCheckout, CheckoutErrors.hasErrors, Bool.or_eq_false_iff]
    tauto

/-- Witness for C6 (amended), at concrete fields: the address "123" is present
with trimmed length 3 < 5, so the address flag fires. -/
theorem checkout_validation_spec_witness :
    addressError (some "123") = true :=
  (checkout_validation_spec (some "Al") (some "a@b.co") (some "123")).2.2.1.mpr
    (Or.inr ⟨"123", rfl, by decide⟩)

/-- Reduction of the checkout submit on its success path: authenticated, a
nonempty reconciled cart, and no field errors append the snapshot order and
clear the session cart. -/
theorem postCheckout_success (st : AppState) (name email address : Option String)
    (fid ts : String) (hAuth : jsTruthyStr st.sess.userId = true)
    (hItems : (getCartDetailed st.products st.sess.cart).items ≠ [])
    (hValid : (validateCheckout name email address).hasErrors = false) :
    postCheckout st name email address fid ts =
      (Response.redirect "/",
        { st with
            orders := st.orders ++
              [{ id := fid, createdAt := ts, userId := jsOrNull st.sess.userId,
                 customer := { name := name.getD "", email := email.getD "",
                               address := address.getD "" },
                 items := (getCartDetailed st.products st.sess.cart).items,
                 total := (getCartDetailed st.products st.sess.cart).total }],
            sess := { st.sess with cart := [] } }) := by
  have hblock : requireAuthBlocks st = false := by
    simp [requireAuthBlocks, hAuth]
  have hne : (getCartDetailed st.products st.sess.cart).items.isEmpty = false := by
    rw [List.isEmpty_eq_false]
    exact hItems
  simp [postCheckout, hblock, hne, hValid]

/-- C7: order commit snapshots the priced items by value. After a successful
checkout, replacing the catalog with any other product list (price changes or
removals included) leaves the committed order — whose items and total were
computed from the catalog as it was at commit time — exactly as stored. -/
theorem order_snapshot_immutable (st : AppState) (name email address : Option String)
    (fid ts : String) (newProducts : List Product)
    (hAuth : jsTruthyStr st.sess.userId = true)
    (hItems : (getCartDetailed st.products st.sess.cart).items ≠ [])
    (hValid : (validateCheckout name email address).hasErrors = false) :
    (setProducts (postCheckout st name email address fid ts).2 newProducts).orders =
      st.orders ++
        [{ id := fid, createdAt := ts, userId := jsOrNull st.sess.userId,
           customer := { name := name.getD "", email := email.getD "",
                         address := address.getD "" },
           items := (getCartDetailed st.products st.sess.cart).items,
           total := (getCartDetailed st.products st.sess.cart).total }] ∧
    (setProducts (postCheckout st name email address fid ts).2 newProducts).orders =
      (postCheckout st name email address fid ts).2.orders := by
  rw [postCheckout_success st name email address fid ts hAuth hItems hValid]
  exact ⟨rfl, rfl⟩

/-- Witness for C7: committing from `stReady` and then emptying the catalog
leaves exactly the snapshot order `orderReady`, whose total is still 450. -/
theorem order_snapshot_immutable_witness :
    (setProducts
        (postCheckout stReady (some "Alice") (some "a@b.co") (some "12345") "oid" "ts0").2
        []).orders = [orderReady] ∧
    orderReady.total = 450 := by
  have h := (order_snapshot_immutable stReady (some "Alice") (some "a@b.co") (some "12345")
    "oid" "ts0" [] (by decide) (by decide) (by decide)).1
  exact ⟨h.trans (by decide), by decide⟩

/-- C8: a checkout submission that passes the empty-cart check and field
validation appends one order and replaces the session cart with the empty
sequence, so an immediate resubmission of the same form is refused with the
cart-view redirect and commits nothing further. -/
theorem checkout_clears_cart (st : AppState) (name email address : Option String)
    (fid ts fid2 ts2 : String)
    (hAuth : jsTruthyStr st.sess.userId = true)
    (hItems : (getCartDetailed st.products st.sess.cart).items ≠ [])
    (hValid : (validateCheckout name email address).hasErrors = false) :
    (postCheckout st name email address fid ts).2.sess.cart = [] ∧
    (postCheckout st name email address fid ts).2.orders.length = st.orders.length + 1 ∧
    postCheckout (postCheckout st name email address fid ts).2 name email address fid2 ts2 =
      (Response.redirect "/cart", (postCheckout st name email address fid ts).2) := by
  rw [postCheckout_success st name email address fid ts hAuth hItems hValid]
  refine ⟨rfl, by simp, ?_⟩
  simp [postCheckout, requireAuthBlocks, hAuth, getCartDetailed]

/-- Witness for C8: the concrete successful checkout from `stReady` leaves an
empty session cart. -/
theorem checkout_clears_cart_witness :
    (postCheckout stReady (some "Alice") (some "a@b.co") (some "12345") "oid" "ts0").2.sess.cart
      = [] :=
  (checkout_clears_cart stReady (some "Alice") (some "a@b.co") (some "12345") "oid" "ts0"
    "oid2" "ts1" (by decide) (by decide) (by decide)).1

/-- C9 (counterexample): the reconciler does not restore key uniqueness. On a
stored cart that already holds two lines for `p1` (both resolvable), the
reconciling read leaves both in the session: the stored cart still has two
lines with productId `p1` afterwards. -/
theorem reconcile_keeps_duplicate_keys :
    (getCartRoute stDupKeys).2.sess.cart.countP (fun it => it.productId == "p1") = 2 ∧
    findProductById stDupKeys.products "p1" ≠ none := by
  exact ⟨by decide, by decide⟩

/-- Incrementing the first match does not change the key sequence. -/
theorem bumpFirst_map_key (cart : List CartLine) (pid : String) (q : Nat) :
    (bumpFirst cart pid q).map CartLine.productId = cart.map CartLine.productId := by
  induction cart with
  | nil => rfl
  | cons a rest ih =>
      by_cases ha : (a.productId == pid) = true
      · simp [bumpFirst, ha]
      · simp [bumpFirst, ha, ih]

/-- Updating or removing the first match keeps the key sequence a sublist. -/
theorem updateFirst_key_sublist (cart : List CartLine) (pid : String) (q : Nat) :
    List.Sublist ((updateFirst cart pid q).map CartLine.productId)
      (cart.map CartLine.productId) := by
  induction cart with
  | nil => simp [updateFirst]
  | cons a rest ih =>
      by_cases ha : (a.productId == pid) = true
      · by_cases hq : (q == 0) = true
        · simp only [updateFirst, ha, hq, if_true]
          exact List.sublist_cons_self _ _
        · simp [updateFirst, ha, hq]
      · simp only [updateFirst, if_neg ha, List.map_cons]
        exact List.Sublist.cons₂ _ ih

/-- C9 (amended): reconciliation leaves the stored cart untouched, so it does
not restore productId uniqueness; instead uniqueness is an invariant of the
mutation operations — starting from a cart with duplicate-free productIds,
Add, Update and Remove all preserve duplicate-freeness (Add increments the
existing line instead of appending a second one). -/
theorem cart_key_uniqueness_invariant (st : AppState) (pid : String) (qRaw : Option Int)
    (h : (st.sess.cart.map CartLine.productId).Nodup) :
    (getCartRoute st).2.sess.cart = st.sess.cart ∧
    ((cartAdd st pid qRaw).2.sess.cart.map CartLine.productId).Nodup ∧
    ((cartUpdate st pid qRaw).2.sess.cart.map CartLine.productId).Nodup ∧
    ((cartRemove st pid).2.sess.cart.map CartLine.productId).Nodup := by
  refine ⟨rfl, ?_, ?_, ?_⟩
  · cases hp : findProductById st.products pid with
    | none => simpa [cartAdd, hp] using h
    | some p =>
        by_cases hany : st.sess.cart.any (fun it => it.productId == pid) = true
        · simpa [cartAdd, hp, hany, bumpFirst_map_key] using h
        · have hany' : st.sess.cart.any (fun it => it.productId == pid) = false := by
            revert hany
            cases st.sess.cart.any (fun it => it.productId == pid) <;> simp
          have hpid : pid ∉ st.sess.cart.map CartLine.productId := by
            rw [List.any_eq_false] at hany'
            intro hmem
            rw [List.mem_map] at hmem
            obtain ⟨it, hit, hpid'⟩ := hmem
            exact absurd (by simp [hpid']) (hany' it hit)
          simp [cartAdd, hp, hany', List.nodup_append, h, hpid]
  · simp only [cartUpdate]
    exact List.Sublist.nodup (updateFirst_key_sublist st.sess.cart pid (normUpdQty qRaw)) h
  · simp only [cartRemove]
    exact List.Sublist.nodup
      (List.Sublist.map CartLine.productId (List.filter_sublist st.sess.cart)) h

/-- Witness for C9 (amended): from the duplicate-free cart `[{p1,5}]`, an Add
of two more `p1` keeps a single `p1` line. -/
theorem cart_key_uniqueness_invariant_witness :
    ((cartAdd stP1Five "p1" (some 2)).2.sess.cart.map CartLine.productId).Nodup :=
  (cart_key_uniqueness_invariant stP1Five "p1" (some 2) (by decide)).2.1

/-- C10: checkout is gated on an authenticated session. A session whose
userId is not truthy is redirected to the login flow by both checkout routes
with the state untouched (no commit), and every order that checkout ever adds
to the order store carries the committing session's non-null userId. -/
theorem checkout_requires_auth (st : AppState) (name email address : Option String)
    (fid ts : String) :
    (jsTruthyStr st.sess.userId = false →
      checkoutGet st = (Response.redirect "/auth/login", st) ∧
      postCheckout st name email address fid ts = (Response.redirect "/auth/login", st)) ∧
    (∀ o ∈ (postCheckout st name email address fid ts).2.orders,
      o ∈ st.orders ∨ (o.userId = st.sess.userId ∧ o.userId ≠ none)) := by
  constructor
  · intro h
    have hblock : requireAuthBlocks st = true := by
      simp [requireAuthBlocks, h]
    exact ⟨by simp [checkoutGet, hblock], by simp [postCheckout, hblock]⟩
  · intro o ho
    by_cases hAuth : jsTruthyStr st.sess.userId = true
    · by_cases hEmpty : (getCartDetailed st.products st.sess.cart).items.isEmpty = true
      · left
        have hblock : requireAuthBlocks st = false := by simp [requireAuthBlocks, hAuth]
        simpa [postCheckout, hblock, hEmpty] using ho
      · by_cases hErr : (validateCheckout name email address).hasErrors = true
        · left
          have hblock : requireAuthBlocks st = false := by simp [requireAuthBlocks, hAuth]
          simpa [postCheckout, hblock, hEmpty, hErr] using ho
        · have hItems : (getCartDetailed st.products st.sess.cart).items ≠ [] := by
            apply List.isEmpty_eq_false.mp
            revert hEmpty
            cases (getCartDetailed st.products st.sess.cart).items.isEmpty <;> simp
          have hValid : (validateCheckout name email address).hasErrors = false := by
            revert hErr
            cases (validateCheckout name email address).hasErrors <;> simp
          rw [postCheckout_success st name email address fid ts hAuth hItems hValid] at ho
          simp only [List.mem_append, List.mem_singleton] at ho
          rcases ho with ho | ho
          · exact Or.inl ho
          · subst ho
            refine Or.inr ⟨by simp [jsOrNull, hAuth], ?_⟩
            cases hu : st.sess.userId with
            | none => rw [hu] at hAuth; exact absurd hAuth (by simp [jsTruthyStr])
            | some u =>
                rw [hu] at hAuth
                simp [jsOrNull, hAuth, hu]
    · have h : jsTruthyStr st.sess.userId = false := by
        revert hAuth
        cases jsTruthyStr st.sess.userId <;> simp
      have hblock : requireAuthBlocks st = true := by
        simp [requireAuthBlocks, h]
      left
      simpa [postCheckout, hblock] using ho

/-- Witness for C10: the unauthenticated `stNoAuth` is redirected to login
with nothing committed, and the order committed from the authenticated
`stReady` carries its session's userId `some "u1"`, which is not null. -/
theorem checkout_requires_auth_witness :
    postCheckout stNoAuth (some "Alice") (some "a@b.co") (some "12345") "oid" "ts0"
      = (Response.redirect "/auth/login", stNoAuth) ∧
    (orderReady.userId = stReady.sess.userId ∧ orderReady.userId ≠ none) := by
  constructor
  · exact ((checkout_requires_auth stNoAuth (some "Alice") (some "a@b.co") (some "12345")
      "oid" "ts0").1 (by decide)).2
  · have h := (checkout_requires_auth stReady (some "Alice") (some "a@b.co") (some "12345")
      "oid" "ts0").2 orderReady (by decide)
    rcases h with h | h
    · exact absurd h (by decide)
    · exact h
